import Mathlib

/-!
Verification of the DailyNews repository (daily_news_bot.py and
fetch_cyber_news.py).

Python strings are modelled as `List Char`; `datetime` values as `Int`
(seconds); fallible external calls (the gemini-cli subprocess, git
subprocesses) as explicit outcome values supplied to the modelled
functions.  Two pieces of Python standard library behaviour that the
scripts call but that carry no repository logic — `html.unescape` (a
table of HTML entities) and `strftime` (calendar formatting) — are taken
as function parameters, so every theorem below holds for any choice of
them.
-/

/-- Characters of a Lean string literal, used to transcribe the Python
string literals of the source. -/
def lit (s : String) : List Char := s.data

/-- Whitespace recognised by Python's `str.strip` / `str.rstrip`
(ASCII range, which is all the scripts' data uses). -/
def isPySpace (c : Char) : Bool :=
  c == ' ' || c == '\t' || c == '\n' || c == '\r' || c == '\x0b' || c == '\x0c'

/-- Python `str.strip()`: drop leading and trailing whitespace. -/
def pyStrip (s : List Char) : List Char :=
  ((s.dropWhile isPySpace).reverse.dropWhile isPySpace).reverse

/-- Python `str.rstrip()`: drop trailing whitespace. -/
def pyRstrip (s : List Char) : List Char :=
  (s.reverse.dropWhile isPySpace).reverse

/-- Whether `pat` is a prefix of the second list (Python `str.startswith`). -/
def startsWith : List Char → List Char → Bool
  | [], _ => true
  | _ :: _, [] => false
  | p :: ps, c :: cs => p == c && startsWith ps cs

/-- Python substring containment, `pat in s`. -/
def containsSub (pat : List Char) : List Char → Bool
  | [] => startsWith pat []
  | c :: s => startsWith pat (c :: s) || containsSub pat s

/-- Number of positions at which `pat` occurs in the text (used to state
"exactly one occurrence of the link"). -/
def countOccs (pat : List Char) : List Char → Nat
  | [] => if startsWith pat [] then 1 else 0
  | c :: s => (if startsWith pat (c :: s) then 1 else 0) + countOccs pat s

/-- Python `str.split('\n')`. -/
def splitNl : List Char → List (List Char)
  | [] => [[]]
  | c :: cs =>
    if c = '\n' then [] :: splitNl cs
    else
      match splitNl cs with
      | [] => [[c]]
      | l :: ls => (c :: l) :: ls

/-- Python `'\n'.join(lines)`. -/
def joinNl : List (List Char) → List Char
  | [] => []
  | [l] => l
  | l :: ls => l ++ '\n' :: joinNl ls

/-- Accumulator form of `splitNl`, used for compositional line counting:
`cur` is the (partial) current line. -/
def linesAux : List Char → List Char → List (List Char)
  | cur, [] => [cur]
  | cur, c :: s => if c = '\n' then cur :: linesAux [] s else linesAux (cur ++ [c]) s

/-- Whether a line consists exactly of the section separator `---`. -/
def isSepLine (l : List Char) : Bool := decide (l = lit "---")

/-- Number of lines of `s` that consist exactly of the section separator
`---` (the claims' "section separators"). -/
def countSep (s : List Char) : Nat := (splitNl s).countP isSepLine

/-- Decimal digit character. -/
def digitChar : Nat → Char
  | 0 => '0' | 1 => '1' | 2 => '2' | 3 => '3' | 4 => '4'
  | 5 => '5' | 6 => '6' | 7 => '7' | 8 => '8' | 9 => '9'
  | _ => '?'

/-- Fuel-driven decimal rendering (the fuel is always sufficient). -/
def natToCharsAux : Nat → Nat → List Char
  | 0, _ => []
  | fuel + 1, n =>
    if n < 10 then [digitChar n]
    else natToCharsAux fuel (n / 10) ++ [digitChar (n % 10)]

/-- Decimal rendering of a natural number, modelling Python `str(n)` /
f-string interpolation of `len(articles)`. -/
def natToChars (n : Nat) : List Char := natToCharsAux (n + 1) n

/-- Python `filename.replace('.md', '')`: remove every (non-overlapping,
left-to-right) occurrence of `.md`. -/
def removeMd : List Char → List Char
  | '.' :: 'm' :: 'd' :: s => removeMd s
  | c :: s => c :: removeMd s
  | [] => []

/-- Python `list.insert(n, x)` (clamps to the end when `n` exceeds the
length, exactly as Python does). -/
def pyInsert (x : List Char) : Nat → List (List Char) → List (List Char)
  | 0, ls => x :: ls
  | _ + 1, [] => [x]
  | n + 1, l :: ls => l :: pyInsert x n ls

/-- Python `content.endswith('\n')`. -/
def endsWithNl (s : List Char) : Bool := s.getLast? == some '\n'

/-- One-pass automaton equivalent to `re.sub('<[^<]+?>', '', text)`:
a match starts at `<`, needs at least one following character that is
not `<`, and ends at the first later `>`; `some buf` is a pending
candidate tag whose inner characters (reversed) are `buf`.  A pending
candidate is abandoned (and emitted verbatim) when a `<` arrives or the
input ends, exactly as the regex fails there and rescans. -/
def stripTagsAux : Option (List Char) → List Char → List Char
  | none, [] => []
  | none, c :: cs =>
    if c = '<' then stripTagsAux (some []) cs else c :: stripTagsAux none cs
  | some buf, [] => '<' :: buf.reverse
  | some buf, c :: cs =>
    if c = '<' then ('<' :: buf.reverse) ++ stripTagsAux (some []) cs
    else if c == '>' && !buf.isEmpty then stripTagsAux none cs
    else stripTagsAux (some (c :: buf)) cs

/-- The tag-stripping pass `re.sub('<[^<]+?>', '', text)` of
`clean_html_tags`. -/
def stripTags (s : List Char) : List Char := stripTagsAux none s

/-- `clean_html_tags` from daily_news_bot.py: strip tags, decode HTML
entities (`unescape`, a parameter: Python stdlib behaviour), strip
surrounding whitespace. -/
def cleanHtmlTags (unescape : List Char → List Char) (s : List Char) : List Char :=
  pyStrip (unescape (stripTags s))

/-- The summary-length cap of `generate_markdown_content` (lines
105-106): summaries longer than 500 characters are cut and marked. -/
def truncateSummary (t : List Char) : List Char :=
  if 500 < t.length then t.take 500 ++ lit "..." else t

/-- A parsed RSS/Atom entry as `fetch_articles_from_feeds` consumes it:
every field may be missing, and the publish timestamp has a primary
(`published_parsed`) and fallback (`updated_parsed`) source. -/
structure FeedEntry where
  title : Option (List Char)
  summary : Option (List Char)
  description : Option (List Char)
  link : Option (List Char)
  published_parsed : Option Int
  updated_parsed : Option Int

/-- An article dictionary as built at lines 52-58 of daily_news_bot.py. -/
structure Article where
  title : List Char
  summary : List Char
  link : List Char
  published : Int
  source : List Char

/-- The publish timestamp of an entry: `published_parsed`, falling back
to `updated_parsed` (lines 44-48). -/
def pubTime (e : FeedEntry) : Option Int :=
  match e.published_parsed with
  | some t => some t
  | none => e.updated_parsed

/-- `entry.get('summary', entry.get('description', 'No description available'))`. -/
def entrySummary (e : FeedEntry) : List Char :=
  match e.summary with
  | some s => s
  | none => e.description.getD (lit "No description available")

/-- The per-entry step of `fetch_articles_from_feeds`: keep the entry iff
it has a publish timestamp and `published_time >= cutoff_time`
(line 51, inclusive comparison), building the article dictionary. -/
def mkArticle (source : List Char) (cutoff : Int) (e : FeedEntry) : Option Article :=
  match pubTime e with
  | some t =>
    if cutoff ≤ t then
      some { title := e.title.getD (lit "No Title"), summary := entrySummary e,
             link := e.link.getD [], published := t, source := source }
    else none
  | none => none

/-- Articles collected over all feeds in fetch order.  A feed whose fetch
or parse raises is skipped (the `except` at line 61); a feed that fails
after processing some entries is modelled by listing only those
entries. -/
def collectArticles (cutoff : Int) : List (List Char × List FeedEntry) → List Article
  | [] => []
  | f :: fs => f.2.filterMap (mkArticle f.1 cutoff) ++ collectArticles cutoff fs

/-- Stable descending insertion: `a` is placed before the first element
whose key does not exceed `a`'s. -/
def insertDesc (a : Article) : List Article → List Article
  | [] => [a]
  | b :: l => if b.published ≤ a.published then a :: b :: l else b :: insertDesc a l

/-- `articles.sort(key=lambda x: x['published'], reverse=True)`
(line 66).  Python's sort is stable; a stable sort is extensionally
determined by its comparator, and is modelled here by stable
insertion. -/
def pySortDesc : List Article → List Article
  | [] => []
  | a :: l => insertDesc a (pySortDesc l)

/-- `fetch_articles_from_feeds`: per-entry filtering over all feeds, then
the stable descending sort by publish time. -/
def fetchArticlesFromFeeds (cutoff : Int) (feeds : List (List Char × List FeedEntry)) : List Article :=
  pySortDesc (collectArticles cutoff feeds)

/-- The bot's cutoff, line 259: `datetime.now() - timedelta(hours=24)` —
unconditionally 24 hours, with no weekday dependence. -/
def cutoffTime (now : Int) : Int := now - 24 * 3600

/-- One rendered item of `generate_markdown_content` (lines 100-111).
`strf` models `strftime('%Y-%m-%d %H:%M UTC')`. -/
def renderArticle (unescape : List Char → List Char) (strf : Int → List Char)
    (a : Article) : List Char :=
  (lit "## **" ++ a.title ++ lit "**") ++ lit "\n\n" ++
  ((lit "**Description:** " ++ truncateSummary (cleanHtmlTags unescape a.summary)) ++ lit "\n\n" ++
  ((lit "**Link:** [" ++ a.link ++ lit "](" ++ a.link ++ lit ")") ++ lit "\n\n" ++
  ((lit "**Source:** " ++ a.source ++ lit " | **Published:** " ++ strf a.published) ++ lit "\n\n" ++
  (lit "---" ++ lit "\n\n"))))

/-- The accumulated item sections of the `for article in articles` loop. -/
def itemsConcat (unescape : List Char → List Char) (strf : Int → List Char) :
    List Article → List Char
  | [] => []
  | a :: l => renderArticle unescape strf a ++ itemsConcat unescape strf l

/-- `generate_markdown_content` (lines 79-113): header, then either the
placeholder (empty input) or the count line, a separator, and the item
sections. -/
def generateMarkdownContent (unescape : List Char → List Char) (strf : Int → List Char)
    (articles : List Article) (dateStr : List Char) : List Char :=
  (lit "# Cyber Security News - " ++ dateStr ++ lit "\n\n") ++
  (if articles.isEmpty then lit "*No new articles found in the last 24 hours.*\n"
   else (lit "*" ++ natToChars articles.length ++ lit " articles found*") ++ lit "\n\n" ++
        (lit "---" ++ lit "\n\n") ++ itemsConcat unescape strf articles)

/-- The link text built by `update_readme` of fetch_cyber_news.py
(line 101): `- [timestamp](newsitems/filename)`. -/
def linkText (ts fn : List Char) : List Char :=
  lit "- [" ++ ts ++ lit "](newsitems/" ++ fn ++ lit ")"

/-- The recognised section heading of fetch_cyber_news.py's README. -/
def cyberHeading : List Char := lit "## Cyber Security News"

/-- The scan of lines 119-123: index of the first line whose stripped
text equals the heading. -/
def findHeaderIdx (heading : List Char) : List (List Char) → Option Nat
  | [] => none
  | l :: ls =>
    if pyStrip l = heading then some 0
    else (findHeaderIdx heading ls).map (fun i => i + 1)

/-- `update_readme` of fetch_cyber_news.py (lines 98-137) as a content
transformer: result content and whether the file was (re)written.  If the
exact link text is already present the write is skipped (`False`).  When
the heading occurs but no line matches after stripping, Python leaves
`insert_index = None` and rejoins the untouched lines; `i + 1` is never
`0`, so `if insert_index:` is simply the `some` case. -/
def fetchUpdateReadme (ts fn c : List Char) : List Char × Bool :=
  if containsSub (linkText ts fn) c then (c, false)
  else if containsSub cyberHeading c then
    match findHeaderIdx cyberHeading (splitNl c) with
    | some i => (joinNl (pyInsert (linkText ts fn) (i + 1) (splitNl c)), true)
    | none => (joinNl (splitNl c), true)
  else
    ((if endsWithNl c then c else c ++ lit "\n") ++
      lit "## Cyber Security News\n\n" ++ linkText ts fn ++ lit "\n", true)

/-- The recognised section heading of daily_news_bot.py's README. -/
def latestHeading : List Char := lit "## Latest News"

/-- `new_link` of daily_news_bot.py line 169:
`- [date](NewsArticles/filename)\n` with `date = filename.replace('.md','')`. -/
def dailyLink (fn : List Char) : List Char :=
  lit "- [" ++ removeMd fn ++ lit "](NewsArticles/" ++ fn ++ lit ")" ++ lit "\n"

/-- The insertion loop of daily_news_bot.py lines 178-186: after the
first line whose stripped text is `## Latest News`, add a blank line if
the next original line is nonblank, then the rstripped link; later
matching lines do not insert again (the `inserted` flag). -/
def dailyInsertAfter (link : List Char) : List (List Char) → List (List Char)
  | [] => []
  | l :: ls =>
    if pyStrip l = latestHeading then
      match ls with
      | [] => l :: [pyRstrip link]
      | nxt :: rest =>
        if pyStrip nxt = [] then l :: pyRstrip link :: nxt :: rest
        else l :: [] :: pyRstrip link :: nxt :: rest
    else l :: dailyInsertAfter link ls

/-- `update_readme` of daily_news_bot.py (lines 150-200) as a content
transformer.  Note: it performs no duplicate-link check — the file is
rewritten unconditionally. -/
def dailyUpdateReadme (fn c : List Char) : List Char :=
  if containsSub latestHeading c then
    joinNl (dailyInsertAfter (dailyLink fn) (splitNl c))
  else
    (if endsWithNl c then c else c ++ lit "\n") ++
      lit "\n## Latest News\n\n" ++ dailyLink fn

/-- Staging of fetch_cyber_news.py line 333, `git add newsitems/ README.md`:
of the changed paths, exactly those under `newsitems/` or equal to
`README.md` are staged (modelled git pathspec semantics). -/
def stagedByFetch (changed : List (List Char)) : List (List Char) :=
  changed.filter (fun p => startsWith (lit "newsitems/") p || p == lit "README.md")

/-- Staging of daily_news_bot.py line 215, `repo.git.add('--all')`:
every changed path is staged. -/
def stagedByBot (changed : List (List Char)) : List (List Char) := changed

/-- `get_timeframe` of fetch_cyber_news.py (lines 42-50): the timeframe
text for the agent prompt and digest header; `weekday` follows Python's
convention, 0 = Monday. -/
def getTimeframe (weekday : Nat) : List Char :=
  if weekday = 0 then lit "72 hours" else lit "24 hours"

/-- Outcome of the gemini-cli subprocess invocation. -/
inductive GeminiResult where
  | completed (returncode : Int) (stdout : List Char) (stderr : List Char)
  | timedOut
  | execError

/-- `run_gemini_cli` (lines 53-75): `None` on non-zero exit, on the
5-minute timeout, and on any other exception; otherwise the captured
stdout. -/
def runGeminiCli : GeminiResult → Option (List Char)
  | .completed rc out _ => if rc ≠ 0 then none else some out
  | .timedOut => none
  | .execError => none

/-- The digest content written by `save_news_item` (lines 78-95). -/
def saveNewsItem (nowStr tf content : List Char) : List Char :=
  (lit "# Cyber Security News - " ++ nowStr ++ lit "\n\n") ++
  (lit "*Timeframe: Last " ++ tf ++ lit "*\n\n---\n\n") ++ content

/-- The digest filename of `save_news_item` (line 83). -/
def fetchNewsFilename (fileTs : List Char) : List Char :=
  lit "CyberNews-" ++ fileTs ++ lit ".md"

/-- Outcomes of the git subprocesses used by `git_commit_and_push` of
fetch_cyber_news.py, one field per decision point of the function. -/
structure GitEnv where
  isRepo : Bool
  statusOut : List Char
  addOk : Bool
  pullOk : Bool
  mergeOk : Bool
  commitOk : Bool
  commitNothingToCommit : Bool
  pushOriginOk : Bool
  hasGithubRemote : Bool
  pushGithubOk : Bool

/-- Warnings `git_commit_and_push` prints without aborting. -/
inductive GitWarning where
  | notARepo
  | mergeFailed
  | pushOriginFailed
  | pushGithubFailed
deriving DecidableEq

/-- `git_commit_and_push` of fetch_cyber_news.py (lines 297-540):
returns whether the function reported success, together with the
warnings it printed.  Pull failure falls back to fetch+merge and a merge
failure only warns (lines 364-383); a push failure to either remote only
warns (lines 414-416, 513-514); a commit failure is tolerated when git
reports nothing to commit (lines 397-403). -/
def gitCommitAndPush (env : GitEnv) : Bool × List GitWarning :=
  if env.isRepo = false then (false, [GitWarning.notARepo])
  else if pyStrip env.statusOut = [] then (true, [])
  else if env.addOk = false then (false, [])
  else
    let mergeWarns := if env.pullOk then [] else
      if env.mergeOk then [] else [GitWarning.mergeFailed]
    if env.commitOk = false && env.commitNothingToCommit = false then (false, mergeWarns)
    else
      let w1 := mergeWarns ++ (if env.pushOriginOk then [] else [GitWarning.pushOriginFailed])
      let w2 := w1 ++ (if env.hasGithubRemote then
        (if env.pushGithubOk then [] else [GitWarning.pushGithubFailed]) else [])
      (true, w2)

/-- `main` of fetch_cyber_news.py (lines 543-567): abort with exit
status 1 when the agent produced no usable output (lines 550-552),
otherwise write the digest, update the README, run the git step
(whose result is ignored, line 565) and finish successfully.  The
result is the digest content and the updated README content. -/
def mainFetch (nowStr fileTs linkTs : List Char) (weekday : Nat) (readme : List Char)
    (g : GeminiResult) (env : GitEnv) : Except Int (List Char × List Char) :=
  match runGeminiCli g with
  | none => Except.error 1
  | some out =>
    if pyStrip out = [] then Except.error 1
    else
      let digest := saveNewsItem nowStr (getTimeframe weekday) out
      let readme2 := (fetchUpdateReadme linkTs (fetchNewsFilename fileTs) readme).1
      let _ := gitCommitAndPush env
      Except.ok (digest, readme2)

/-- Outcomes of the git operations of daily_news_bot.py's
`git_commit_and_push`. -/
structure BotGitEnv where
  repoOpenFails : Bool
  hasChanges : Bool
  commitFails : Bool
  pushMainFails : Bool
  pushBranchFails : Bool

/-- The body of daily_news_bot.py's `git_commit_and_push` (lines
211-241) before exception handling: an error value stands for a raised
exception, `ok b` for normal completion (`b` = something was pushed).
A failed push of `main` falls back to pushing the current branch; a
failure there is caught by the inner `except push_error` and only
logged. -/
def botGitSteps (env : BotGitEnv) : Except (List Char) Bool :=
  if env.repoOpenFails then Except.error (lit "git error")
  else if env.hasChanges then
    if env.commitFails then Except.error (lit "commit error")
    else if env.pushMainFails then
      if env.pushBranchFails then Except.ok false else Except.ok true
    else Except.ok true
  else Except.ok false

/-- `git_commit_and_push` of daily_news_bot.py (lines 203-246): the
outer `except` catches every git exception, prints, and returns
normally — the caller can never be aborted by it. -/
def botGitCommitAndPush (env : BotGitEnv) : Bool :=
  match botGitSteps env with
  | Except.ok _ => true
  | Except.error _ => true

/-! ### Lemmas about the line model -/

theorem splitNl_ne_nil : ∀ s : List Char, splitNl s ≠ [] := by
  intro s
  cases s with
  | nil => simp [splitNl]
  | cons c cs =>
    by_cases h : c = '\n'
    · simp [splitNl, h]
    · simp only [splitNl, if_neg h]
      cases hs : splitNl cs <;> simp

theorem splitNl_cons_nl (cs : List Char) : splitNl ('\n' :: cs) = [] :: splitNl cs := by
  simp [splitNl]

theorem splitNl_cons_ne (c : Char) (cs : List Char) (h : c ≠ '\n') :
    splitNl (c :: cs) = (c :: (splitNl cs).headD []) :: (splitNl cs).tail := by
  simp only [splitNl, if_neg h]
  cases hs : splitNl cs <;> simp

theorem joinNl_single (l : List Char) : joinNl [l] = l := rfl

theorem joinNl_cons_cons (l x : List Char) (xs : List (List Char)) :
    joinNl (l :: x :: xs) = l ++ '\n' :: joinNl (x :: xs) := rfl

theorem joinNl_splitNl : ∀ s : List Char, joinNl (splitNl s) = s := by
  intro s
  induction s with
  | nil => rfl
  | cons c cs ih =>
    by_cases h : c = '\n'
    · subst h
      rw [splitNl_cons_nl]
      cases hs : splitNl cs with
      | nil => exact absurd hs (splitNl_ne_nil cs)
      | cons l ls =>
        rw [hs] at ih
        rw [joinNl_cons_cons, ← ih]
        simp
    · rw [splitNl_cons_ne c cs h]
      cases hs : splitNl cs with
      | nil => exact absurd hs (splitNl_ne_nil cs)
      | cons l ls =>
        rw [hs] at ih
        cases ls with
        | nil =>
          simp only [List.headD_cons, List.tail_cons]
          rw [joinNl_single] at ih ⊢
          simp [ih]
        | cons y ys =>
          simp only [List.headD_cons, List.tail_cons]
          rw [joinNl_cons_cons, ← ih, joinNl_cons_cons]
          simp

theorem linesAux_eq_splitNl : ∀ (s cur : List Char),
    linesAux cur s = (cur ++ (splitNl s).headD []) :: (splitNl s).tail := by
  intro s
  induction s with
  | nil => intro cur; simp [linesAux, splitNl]
  | cons c cs ih =>
    intro cur
    by_cases h : c = '\n'
    · subst h
      rw [splitNl_cons_nl]
      simp only [linesAux, if_pos rfl, List.headD_cons, List.tail_cons]
      rw [ih []]
      cases hs : splitNl cs with
      | nil => exact absurd hs (splitNl_ne_nil cs)
      | cons l ls => simp
    · rw [splitNl_cons_ne c cs h]
      simp only [linesAux, if_neg h, List.headD_cons, List.tail_cons]
      rw [ih (cur ++ [c])]
      simp

theorem splitNl_eq_linesAux (s : List Char) : splitNl s = linesAux [] s := by
  rw [linesAux_eq_splitNl]
  cases hs : splitNl s with
  | nil => exact absurd hs (splitNl_ne_nil s)
  | cons l ls => simp

theorem linesAux_append_noNl : ∀ (x : List Char), '\n' ∉ x →
    ∀ (cur y : List Char), linesAux cur (x ++ y) = linesAux (cur ++ x) y := by
  intro x
  induction x with
  | nil => intro _ cur y; simp
  | cons c x ih =>
    intro h cur y
    have hc : c ≠ '\n' := fun he => h (he ▸ List.mem_cons_self c x)
    have hx : '\n' ∉ x := fun hm => h (List.mem_cons_of_mem c hm)
    simp only [List.cons_append, linesAux, if_neg (fun he : c = '\n' => hc he)]
    have hrec := ih hx (cur ++ [c]) y
    simpa using hrec

theorem linesAux_nl (cur y : List Char) : linesAux cur ('\n' :: y) = cur :: linesAux [] y := by
  simp [linesAux]

/-! ### Lemmas about substring containment -/

theorem startsWith_self_append : ∀ (p y : List Char), startsWith p (p ++ y) = true := by
  intro p
  induction p with
  | nil => intro y; rfl
  | cons a ps ih => intro y; simp [startsWith, ih]

theorem containsSub_of_startsWith (p s : List Char) (h : startsWith p s = true) :
    containsSub p s = true := by
  cases s with
  | nil => rw [containsSub]; exact h
  | cons c s => rw [containsSub, h]; rfl

theorem containsSub_mid (p : List Char) : ∀ (x y : List Char),
    containsSub p (x ++ (p ++ y)) = true := by
  intro x
  induction x with
  | nil =>
    intro y
    rw [List.nil_append]
    exact containsSub_of_startsWith p (p ++ y) (startsWith_self_append p y)
  | cons c x ih =>
    intro y
    rw [List.cons_append, containsSub, ih y, Bool.or_true]

theorem joinNl_mem_split : ∀ (L : List (List Char)) (l : List Char), l ∈ L →
    ∃ x y, joinNl L = x ++ (l ++ y) := by
  intro L
  induction L with
  | nil => intro l hl; exact absurd hl (List.not_mem_nil l)
  | cons h t ih =>
    intro l hl
    rcases List.mem_cons.mp hl with he | ht
    · subst he
      cases t with
      | nil => exact ⟨[], [], by simp [joinNl_single]⟩
      | cons a t2 => exact ⟨[], '\n' :: joinNl (a :: t2), by rw [joinNl_cons_cons]; simp⟩
    · obtain ⟨x, y, hxy⟩ := ih l ht
      cases t with
      | nil => exact absurd ht (List.not_mem_nil l)
      | cons a t2 =>
        refine ⟨h ++ '\n' :: x, y, ?_⟩
        rw [joinNl_cons_cons, hxy]
        simp

theorem containsSub_of_mem_joinNl (l : List Char) (L : List (List Char)) (h : l ∈ L) :
    containsSub l (joinNl L) = true := by
  obtain ⟨x, y, hxy⟩ := joinNl_mem_split L l h
  rw [hxy]
  exact containsSub_mid l x y

theorem mem_pyInsert (x : List Char) : ∀ (n : Nat) (L : List (List Char)),
    x ∈ pyInsert x n L := by
  intro n
  induction n with
  | zero => intro L; rw [pyInsert]; exact List.mem_cons_self x L
  | succ n ih =>
    intro L
    cases L with
    | nil => rw [pyInsert]; exact List.mem_cons_self x []
    | cons l ls => rw [pyInsert]; exact List.mem_cons_of_mem l (ih ls)

/-! ### Lemmas for separator counting -/

theorem isSepLine_nil : isSepLine [] = false := by decide

theorem isSepLine_sep : isSepLine (lit "---") = true := by decide

theorem isSepLine_of_head (L : List Char) (c : Char) (h1 : L.head? = some c)
    (hc : c ≠ '-') : isSepLine L = false := by
  rw [isSepLine]
  apply decide_eq_false
  intro he
  apply hc
  have h2 : (lit "---").head? = some c := he ▸ h1
  have h3 : some '-' = some c := h2
  exact (Option.some.inj h3).symm

theorem countP_emit_ne (L : List Char) (c : Char) (h : L.head? = some c) (hc : c ≠ '-')
    (rest : List (List Char)) :
    (L :: rest).countP isSepLine = rest.countP isSepLine := by
  simp [List.countP_cons, isSepLine_of_head L c h hc]

theorem countP_emit_nil (rest : List (List Char)) :
    (([] : List Char) :: rest).countP isSepLine = rest.countP isSepLine := by
  simp [List.countP_cons, isSepLine_nil]

theorem countP_emit_sep (rest : List (List Char)) :
    ((lit "---") :: rest).countP isSepLine = rest.countP isSepLine + 1 := by
  simp [List.countP_cons, isSepLine_sep]

theorem nlnl_append (y : List Char) : lit "\n\n" ++ y = '\n' :: '\n' :: y := rfl

theorem digitChar_ne_nl (n : Nat) : digitChar n ≠ '\n' := by
  unfold digitChar
  split <;> decide

theorem natToCharsAux_noNl : ∀ (fuel n : Nat), '\n' ∉ natToCharsAux fuel n := by
  intro fuel
  induction fuel with
  | zero => intro n; simp [natToCharsAux]
  | succ f ih =>
    intro n
    rw [natToCharsAux]
    split
    · intro hm
      simp only [List.mem_singleton] at hm
      exact digitChar_ne_nl n hm.symm
    · intro hm
      rcases List.mem_append.mp hm with h1 | h2
      · exact ih (n / 10) h1
      · simp only [List.mem_singleton] at h2
        exact digitChar_ne_nl (n % 10) h2.symm

theorem natToChars_noNl (n : Nat) : '\n' ∉ natToChars n := natToCharsAux_noNl (n + 1) n

theorem truncateSummary_noNl (t : List Char) (h : '\n' ∉ t) :
    '\n' ∉ truncateSummary t := by
  rw [truncateSummary]
  split
  · intro hm
    rcases List.mem_append.mp hm with h1 | h2
    · exact h (List.take_subset 500 t h1)
    · exact absurd h2 (by decide)
  · exact h

/-! ### Lemmas about the stable descending sort -/

theorem mem_insertDesc (x a : Article) : ∀ (l : List Article),
    x ∈ insertDesc a l ↔ x = a ∨ x ∈ l := by
  intro l
  induction l with
  | nil => simp [insertDesc]
  | cons b l ih =>
    rw [insertDesc]
    by_cases hc : b.published ≤ a.published
    · rw [if_pos hc]
      simp [List.mem_cons]
    · rw [if_neg hc]
      simp only [List.mem_cons, ih]
      tauto

theorem mem_pySortDesc (x : Article) : ∀ (l : List Article),
    x ∈ pySortDesc l ↔ x ∈ l := by
  intro l
  induction l with
  | nil => simp [pySortDesc]
  | cons a l ih =>
    rw [pySortDesc, mem_insertDesc]
    simp [ih, List.mem_cons]

theorem pairwise_insertDesc (a : Article) : ∀ (l : List Article),
    l.Pairwise (fun x y => y.published ≤ x.published) →
    (insertDesc a l).Pairwise (fun x y => y.published ≤ x.published) := by
  intro l
  induction l with
  | nil => intro _; simp [insertDesc]
  | cons b l ih =>
    intro h
    rw [List.pairwise_cons] at h
    rw [insertDesc]
    by_cases hc : b.published ≤ a.published
    · rw [if_pos hc]
      rw [List.pairwise_cons]
      constructor
      · intro x hx
        rcases List.mem_cons.mp hx with he | hm
        · exact he ▸ hc
        · exact le_trans (h.1 x hm) hc
      · rw [List.pairwise_cons]
        exact h
    · rw [if_neg hc]
      rw [List.pairwise_cons]
      constructor
      · intro x hx
        rcases (mem_insertDesc x a l).mp hx with he | hm
        · exact he ▸ le_of_lt (lt_of_not_le hc)
        · exact h.1 x hm
      · exact ih h.2

theorem pairwise_pySortDesc : ∀ (l : List Article),
    (pySortDesc l).Pairwise (fun x y => y.published ≤ x.published) := by
  intro l
  induction l with
  | nil => simp [pySortDesc]
  | cons a l ih => exact pairwise_insertDesc a (pySortDesc l) ih

theorem filter_insertDesc (t : Int) (a : Article) : ∀ (l : List Article),
    (insertDesc a l).filter (fun x => x.published == t) =
      (a :: l).filter (fun x => x.published == t) := by
  intro l
  induction l with
  | nil => rfl
  | cons b l ih =>
    rw [insertDesc]
    by_cases hc : b.published ≤ a.published
    · rw [if_pos hc]
    · rw [if_neg hc]
      have hab : a.published < b.published := lt_of_not_le hc
      by_cases ha : a.published = t
      · have hb : (b.published == t) = false := by
          apply beq_eq_false_iff_ne.mpr
          intro hbe
          rw [hbe, ← ha] at hab
          exact lt_irrefl _ hab
        simp [List.filter_cons, hb, ih, ha]
      · have ha' : (a.published == t) = false := beq_eq_false_iff_ne.mpr ha
        simp [List.filter_cons, ha', ih]

theorem filter_pySortDesc (t : Int) : ∀ (l : List Article),
    (pySortDesc l).filter (fun x => x.published == t) =
      l.filter (fun x => x.published == t) := by
  intro l
  induction l with
  | nil => rfl
  | cons a l ih =>
    rw [pySortDesc, filter_insertDesc]
    simp [List.filter_cons, ih]

theorem countSep_linesAux (s : List Char) :
    countSep s = (linesAux [] s).countP isSepLine := by
  rw [countSep, splitNl_eq_linesAux]

theorem countP_render (unescape : List Char → List Char) (strf : Int → List Char)
    (a : Article) (h1 : '\n' ∉ a.title) (h2 : '\n' ∉ cleanHtmlTags unescape a.summary)
    (h3 : '\n' ∉ a.link) (h4 : '\n' ∉ a.source) (h5 : '\n' ∉ strf a.published) :
    ∀ y : List Char,
      (linesAux [] (renderArticle unescape strf a ++ y)).countP isSepLine =
        1 + (linesAux [] y).countP isSepLine := by
  intro y
  have h2' : '\n' ∉ truncateSummary (cleanHtmlTags unescape a.summary) :=
    truncateSummary_noNl _ h2
  rw [renderArticle]
  simp only [List.append_assoc, List.cons_append, nlnl_append]
  rw [linesAux_append_noNl (lit "## **") (by decide), linesAux_append_noNl a.title h1,
    linesAux_append_noNl (lit "**") (by decide), linesAux_nl, linesAux_nl]
  rw [linesAux_append_noNl (lit "**Description:** ") (by decide),
    linesAux_append_noNl _ h2', linesAux_nl, linesAux_nl]
  rw [linesAux_append_noNl (lit "**Link:** [") (by decide), linesAux_append_noNl a.link h3,
    linesAux_append_noNl (lit "](") (by decide), linesAux_append_noNl a.link h3,
    linesAux_append_noNl (lit ")") (by decide), linesAux_nl, linesAux_nl]
  rw [linesAux_append_noNl (lit "**Source:** ") (by decide), linesAux_append_noNl a.source h4,
    linesAux_append_noNl (lit " | **Published:** ") (by decide), linesAux_append_noNl _ h5,
    linesAux_nl, linesAux_nl]
  rw [linesAux_append_noNl (lit "---") (by decide), linesAux_nl, linesAux_nl]
  simp only [List.nil_append]
  rw [countP_emit_ne ((lit "## **" ++ a.title) ++ lit "**") '#' rfl (by decide),
    countP_emit_nil,
    countP_emit_ne (lit "**Description:** " ++ truncateSummary (cleanHtmlTags unescape a.summary))
      '*' rfl (by decide),
    countP_emit_nil,
    countP_emit_ne ((((lit "**Link:** [" ++ a.link) ++ lit "](") ++ a.link) ++ lit ")")
      '*' rfl (by decide),
    countP_emit_nil,
    countP_emit_ne (((lit "**Source:** " ++ a.source) ++ lit " | **Published:** ") ++
      strf a.published) '*' rfl (by decide),
    countP_emit_nil,
    countP_emit_sep, countP_emit_nil]
  omega

theorem countP_items (unescape : List Char → List Char) (strf : Int → List Char) :
    ∀ (arts : List Article),
      (∀ a ∈ arts, '\n' ∉ a.title ∧ '\n' ∉ cleanHtmlTags unescape a.summary ∧
        '\n' ∉ a.link ∧ '\n' ∉ a.source ∧ '\n' ∉ strf a.published) →
      ∀ y : List Char,
        (linesAux [] (itemsConcat unescape strf arts ++ y)).countP isSepLine =
          arts.length + (linesAux [] y).countP isSepLine := by
  intro arts
  induction arts with
  | nil => intro _ y; simp [itemsConcat]
  | cons a l ih =>
    intro h y
    obtain ⟨h1, h2, h3, h4, h5⟩ := h a (List.mem_cons_self a l)
    rw [itemsConcat, List.append_assoc, countP_render unescape strf a h1 h2 h3 h4 h5,
      ih (fun b hb => h b (List.mem_cons_of_mem a hb)) y]
    simp only [List.length_cons]
    omega

/-- C2: For every list of articles, the rendered digest of
`generate_markdown_content` contains one `---` separator line per item
PLUS the one emitted after the article-count line (line 97), so N
articles give N + 1 separators, and the empty list gives the placeholder
line and no separators.  The newline-freedom hypotheses say that the
article fields and the formatted strings contain no raw line breaks (a
field containing its own newline would add lines of its own). -/
theorem generate_markdown_separator_count
    (unescape : List Char → List Char) (strf : Int → List Char)
    (articles : List Article) (dateStr : List Char)
    (hd : '\n' ∉ dateStr)
    (hf : ∀ a ∈ articles, '\n' ∉ a.title ∧ '\n' ∉ cleanHtmlTags unescape a.summary ∧
      '\n' ∉ a.link ∧ '\n' ∉ a.source ∧ '\n' ∉ strf a.published) :
    (articles = [] →
      generateMarkdownContent unescape strf articles dateStr =
        (lit "# Cyber Security News - " ++ dateStr ++ lit "\n\n") ++
          lit "*No new articles found in the last 24 hours.*\n" ∧
      countSep (generateMarkdownContent unescape strf articles dateStr) = 0) ∧
    (articles ≠ [] →
      countSep (generateMarkdownContent unescape strf articles dateStr) =
        articles.length + 1) := by
  constructor
  · intro he
    subst he
    refine ⟨rfl, ?_⟩
    have hg : generateMarkdownContent unescape strf [] dateStr =
        (lit "# Cyber Security News - " ++ dateStr ++ lit "\n\n") ++
          lit "*No new articles found in the last 24 hours.*\n" := rfl
    rw [countSep_linesAux, hg]
    simp only [List.append_assoc, List.cons_append, nlnl_append]
    rw [linesAux_append_noNl (lit "# Cyber Security News - ") (by decide),
      linesAux_append_noNl dateStr hd, linesAux_nl, linesAux_nl]
    simp only [List.nil_append]
    rw [countP_emit_ne (lit "# Cyber Security News - " ++ dateStr) '#' rfl (by decide),
      countP_emit_nil]
    decide
  · intro hne
    cases articles with
    | nil => exact absurd rfl hne
    | cons a l =>
      have hg : generateMarkdownContent unescape strf (a :: l) dateStr =
          (lit "# Cyber Security News - " ++ dateStr ++ lit "\n\n") ++
            ((lit "*" ++ natToChars (a :: l).length ++ lit " articles found*") ++ lit "\n\n" ++
              (lit "---" ++ lit "\n\n") ++ itemsConcat unescape strf (a :: l)) := rfl
      rw [countSep_linesAux, hg]
      simp only [List.append_assoc, List.cons_append, nlnl_append]
      rw [linesAux_append_noNl (lit "# Cyber Security News - ") (by decide),
        linesAux_append_noNl dateStr hd, linesAux_nl, linesAux_nl,
        linesAux_append_noNl (lit "*") (by decide),
        linesAux_append_noNl (natToChars (a :: l).length) (natToChars_noNl _),
        linesAux_append_noNl (lit " articles found*") (by decide), linesAux_nl, linesAux_nl,
        linesAux_append_noNl (lit "---") (by decide), linesAux_nl, linesAux_nl]
      simp only [List.nil_append]
      rw [countP_emit_ne (lit "# Cyber Security News - " ++ dateStr) '#' rfl (by decide),
        countP_emit_nil,
        countP_emit_ne ((lit "*" ++ natToChars (a :: l).length) ++ lit " articles found*")
          '*' rfl (by decide),
        countP_emit_nil, countP_emit_sep, countP_emit_nil]
      rw [← List.append_nil (itemsConcat unescape strf (a :: l)),
        countP_items unescape strf (a :: l) hf []]
      have hz : (linesAux [] ([] : List Char)).countP isSepLine = 0 := by decide
      rw [hz]

/-- C2 witness: one article gives exactly two separator lines, by the
main theorem at a concrete input. -/
theorem generate_markdown_separator_count_case :
    countSep (generateMarkdownContent (fun l => l) (fun _ => lit "2025-01-01 00:00 UTC")
      [{ title := lit "Alpha", summary := lit "Beta", link := lit "http:x",
         published := 0, source := lit "SourceA" }] (lit "2025-01-01")) = 2 := by
  have h := (generate_markdown_separator_count (fun l => l)
      (fun _ => lit "2025-01-01 00:00 UTC")
      [{ title := lit "Alpha", summary := lit "Beta", link := lit "http:x",
         published := 0, source := lit "SourceA" }] (lit "2025-01-01")
      (by decide) (by decide)).2 (by simp)
  simpa using h

set_option maxRecDepth 8000 in
/-- C2 counterexample to the claim as stated: a one-article digest
contains two `---` lines (the claim predicts exactly one). -/
theorem generate_markdown_two_separators_for_one_article :
    countSep (generateMarkdownContent (fun l => l) (fun _ => lit "2025-02-02 12:00 UTC")
      [{ title := lit "T", summary := lit "S", link := lit "L",
         published := 0, source := lit "X" }] (lit "2025-02-02")) = 2 ∧ (2 : Nat) ≠ 1 := by
  constructor
  · decide
  · decide

/-- C1 (amended): the idempotence rule holds for fetch_cyber_news.py's
`update_readme`.  If the exact link text already occurs anywhere in the
file the update skips the write and reports no update, and applying the
update twice with the same timestamp and filename produces the same
content as applying it once (daily_news_bot.py's `update_readme`, by
contrast, performs no duplicate check — see the counterexample). -/
theorem fetch_update_readme_idempotent (ts fn c : List Char) :
    (containsSub (linkText ts fn) c = true → fetchUpdateReadme ts fn c = (c, false)) ∧
    (fetchUpdateReadme ts fn (fetchUpdateReadme ts fn c).1).1 =
      (fetchUpdateReadme ts fn c).1 := by
  constructor
  · intro h
    rw [fetchUpdateReadme, if_pos h]
  · by_cases h1 : containsSub (linkText ts fn) c = true
    · have hc : fetchUpdateReadme ts fn c = (c, false) := by
        rw [fetchUpdateReadme, if_pos h1]
      simp [hc]
    · have h1' : containsSub (linkText ts fn) c = false := Bool.eq_false_iff.mpr h1
      by_cases h2 : containsSub cyberHeading c = true
      · cases hidx : findHeaderIdx cyberHeading (splitNl c) with
        | some i =>
          have hres : fetchUpdateReadme ts fn c =
              (joinNl (pyInsert (linkText ts fn) (i + 1) (splitNl c)), true) := by
            simp [fetchUpdateReadme, h1', h2, hidx]
          have hcs : containsSub (linkText ts fn)
              (joinNl (pyInsert (linkText ts fn) (i + 1) (splitNl c))) = true :=
            containsSub_of_mem_joinNl _ _ (mem_pyInsert _ _ _)
          have hfinal : fetchUpdateReadme ts fn
              (joinNl (pyInsert (linkText ts fn) (i + 1) (splitNl c))) =
              (joinNl (pyInsert (linkText ts fn) (i + 1) (splitNl c)), false) := by
            rw [fetchUpdateReadme, if_pos hcs]
          simp [hres, hfinal]
        | none =>
          have hres : fetchUpdateReadme ts fn c = (c, true) := by
            simp [fetchUpdateReadme, h1', h2, hidx, joinNl_splitNl]
          simp [hres]
      · have h2' : containsSub cyberHeading c = false := Bool.eq_false_iff.mpr h2
        have hres : fetchUpdateReadme ts fn c =
            ((if endsWithNl c then c else c ++ lit "\n") ++
              lit "## Cyber Security News\n\n" ++ linkText ts fn ++ lit "\n", true) := by
          simp [fetchUpdateReadme, h1', h2']
        have hcs : containsSub (linkText ts fn)
            ((if endsWithNl c then c else c ++ lit "\n") ++
              lit "## Cyber Security News\n\n" ++ linkText ts fn ++ lit "\n") = true := by
          have hm := containsSub_mid (linkText ts fn)
            ((if endsWithNl c then c else c ++ lit "\n") ++ lit "## Cyber Security News\n\n")
            (lit "\n")
          simpa [List.append_assoc] using hm
        rw [hres]
        show (fetchUpdateReadme ts fn
            ((if endsWithNl c then c else c ++ lit "\n") ++
              lit "## Cyber Security News\n\n" ++ linkText ts fn ++ lit "\n")).1 =
          (if endsWithNl c then c else c ++ lit "\n") ++
            lit "## Cyber Security News\n\n" ++ linkText ts fn ++ lit "\n"
        rw [fetchUpdateReadme, if_pos hcs]

/-- C1 witness: when the README already consists of the exact link text,
the update skips the write and reports no update. -/
theorem fetch_update_readme_idempotent_case :
    fetchUpdateReadme (lit "2025-01-01 10:00") (lit "CyberNews-2025-01-01_10:00.md")
        (linkText (lit "2025-01-01 10:00") (lit "CyberNews-2025-01-01_10:00.md")) =
      (linkText (lit "2025-01-01 10:00") (lit "CyberNews-2025-01-01_10:00.md"), false) :=
  (fetch_update_readme_idempotent (lit "2025-01-01 10:00")
    (lit "CyberNews-2025-01-01_10:00.md")
    (linkText (lit "2025-01-01 10:00") (lit "CyberNews-2025-01-01_10:00.md"))).1 (by decide)

set_option maxRecDepth 8000 in
/-- C1 counterexample: daily_news_bot.py's `update_readme` has no
duplicate check, so running it twice with the same filename leaves two
occurrences of the link in the README (the claim requires exactly one,
with the second run skipping the write). -/
theorem daily_update_readme_duplicates :
    countOccs (pyRstrip (dailyLink (lit "a.md")))
        (dailyUpdateReadme (lit "a.md")
          (dailyUpdateReadme (lit "a.md") (lit "## Latest News\n"))) = 2 ∧
      countOccs (pyRstrip (dailyLink (lit "a.md")))
        (dailyUpdateReadme (lit "a.md") (lit "## Latest News\n")) = 1 := by
  constructor
  · decide
  · decide

/-- C3 (amended): fetch_cyber_news.py's publish step stages only paths
under `newsitems/` or the index file `README.md`, while
daily_news_bot.py's publish step (`git add --all`) stages every changed
path of the working tree. -/
theorem staging_paths_restricted (changed : List (List Char)) (p : List Char) :
    (p ∈ stagedByFetch changed →
      p ∈ changed ∧ (startsWith (lit "newsitems/") p = true ∨ p = lit "README.md")) ∧
    stagedByBot changed = changed := by
  constructor
  · intro hp
    rw [stagedByFetch, List.mem_filter] at hp
    refine ⟨hp.1, ?_⟩
    have h2 : startsWith (lit "newsitems/") p = true ∨ (p == lit "README.md") = true := by
      simpa using hp.2
    rcases h2 with ha | hb
    · exact Or.inl ha
    · exact Or.inr (eq_of_beq hb)
  · rfl

/-- C3 witness: a digest file is staged by the fetch script's publish
step and is indeed under the digest directory. -/
theorem staging_paths_restricted_case :
    lit "newsitems/x.md" ∈ stagedByFetch [lit "newsitems/x.md"] ∧
      (lit "newsitems/x.md" ∈ [lit "newsitems/x.md"] ∧
        (startsWith (lit "newsitems/") (lit "newsitems/x.md") = true ∨
          lit "newsitems/x.md" = lit "README.md")) :=
  ⟨by decide,
    (staging_paths_restricted [lit "newsitems/x.md"] (lit "newsitems/x.md")).1 (by decide)⟩

/-- C3 counterexample: daily_news_bot.py stages every changed path
(`git add --all`), including one outside the digest directory and the
index file, so unrelated local changes are committed. -/
theorem bot_stages_unrelated_files :
    lit "secret.txt" ∈ stagedByBot [lit "secret.txt"] ∧
      startsWith (lit "newsitems/") (lit "secret.txt") = false ∧
      startsWith (lit "NewsArticles/") (lit "secret.txt") = false ∧
      lit "secret.txt" ≠ lit "README.md" := by
  refine ⟨by decide, by decide, by decide, by decide⟩

/-- C4 (amended): the bot's filtering cutoff is always now minus 24
hours regardless of the weekday; the Monday/72-hour rule exists only in
`get_timeframe` of fetch_cyber_news.py, which merely selects the
timeframe text used in the agent prompt and digest header. -/
theorem bot_cutoff_and_prompt_timeframe (now : Int) (d : Nat) :
    cutoffTime now = now - 24 * 3600 ∧
      (d = 0 → getTimeframe d = lit "72 hours") ∧
      (d ≠ 0 → getTimeframe d = lit "24 hours") := by
  refine ⟨rfl, ?_, ?_⟩
  · intro h
    rw [getTimeframe, if_pos h]
  · intro h
    rw [getTimeframe, if_neg h]

/-- C4 witness: the cutoff at a concrete time, and the timeframe text on
Monday (weekday 0) and Thursday (weekday 3). -/
theorem bot_cutoff_and_prompt_timeframe_case :
    cutoffTime 1000 = 1000 - 24 * 3600 ∧ getTimeframe 0 = lit "72 hours" ∧
      getTimeframe 3 = lit "24 hours" :=
  ⟨(bot_cutoff_and_prompt_timeframe 1000 0).1,
    (bot_cutoff_and_prompt_timeframe 1000 0).2.1 rfl,
    (bot_cutoff_and_prompt_timeframe 1000 3).2.2 (by decide)⟩

/-- C4 counterexample: on the designated extended-window day (weekday 0,
Monday, as `get_timeframe` itself witnesses) the bot's filtering cutoff
is still now minus 24 hours, not now minus 72 hours. -/
theorem bot_cutoff_ignores_monday :
    getTimeframe 0 = lit "72 hours" ∧ cutoffTime 0 = -86400 ∧
      cutoffTime 0 ≠ 0 - 72 * 3600 := by
  refine ⟨by decide, by decide, by decide⟩

/-- C5: an entry carrying a publish timestamp `t` is turned into an
article if and only if `cutoff ≤ t` (the comparison is inclusive), and
membership in the output of `fetch_articles_from_feeds` coincides with
membership in the collected (pre-sort) articles, so an entry is retained
exactly when its timestamp is at or after the cutoff. -/
theorem fetch_filter_inclusive_cutoff (cutoff t : Int) (name : List Char) (e : FeedEntry)
    (h : pubTime e = some t) :
    ((mkArticle name cutoff e).isSome = true ↔ cutoff ≤ t) ∧
      ∀ (feeds : List (List Char × List FeedEntry)) (a : Article),
        a ∈ fetchArticlesFromFeeds cutoff feeds ↔ a ∈ collectArticles cutoff feeds := by
  constructor
  · rw [mkArticle, h]
    by_cases hc : cutoff ≤ t
    · simp [hc]
    · simp [hc]
  · intro feeds a
    rw [fetchArticlesFromFeeds]
    exact mem_pySortDesc a (collectArticles cutoff feeds)

/-- C5 witness: a boundary entry published exactly at the cutoff is
retained. -/
theorem fetch_filter_boundary_retained :
    (mkArticle (lit "Bleeping Computer") 5
        { title := some (lit "T"), summary := some (lit "S"), description := none,
          link := some (lit "http:y"), published_parsed := some 5,
          updated_parsed := none }).isSome = true :=
  ((fetch_filter_inclusive_cutoff 5 5 (lit "Bleeping Computer")
      { title := some (lit "T"), summary := some (lit "S"), description := none,
        link := some (lit "http:y"), published_parsed := some 5,
        updated_parsed := none } rfl).1).mpr (by decide)

/-- C6: the rendered description is the cleaned summary unchanged when
its length is at most 500 characters; otherwise it is the first 500
characters followed by the 3-character marker, of total length 503. -/
theorem summary_truncation_budget (unescape : List Char → List Char) (s : List Char) :
    ((cleanHtmlTags unescape s).length ≤ 500 →
      truncateSummary (cleanHtmlTags unescape s) = cleanHtmlTags unescape s) ∧
      (500 < (cleanHtmlTags unescape s).length →
        truncateSummary (cleanHtmlTags unescape s) =
          (cleanHtmlTags unescape s).take 500 ++ lit "..." ∧
        (truncateSummary (cleanHtmlTags unescape s)).length = 503) := by
  constructor
  · intro h
    rw [truncateSummary, if_neg (by omega)]
  · intro h
    rw [truncateSummary, if_pos h]
    refine ⟨rfl, ?_⟩
    have h3 : (lit "...").length = 3 := by decide
    rw [List.length_append, List.length_take, h3, Nat.min_eq_left (le_of_lt h)]

set_option maxRecDepth 8000 in
/-- C6 witness: a 600-character cleaned summary renders at length 503,
and a 400-character one renders unchanged. -/
theorem summary_truncation_budget_case :
    (truncateSummary (cleanHtmlTags (fun l => l) (List.replicate 600 'a'))).length = 503 ∧
      truncateSummary (cleanHtmlTags (fun l => l) (List.replicate 400 'b')) =
        cleanHtmlTags (fun l => l) (List.replicate 400 'b') :=
  ⟨((summary_truncation_budget (fun l => l) (List.replicate 600 'a')).2 (by decide)).2,
    (summary_truncation_budget (fun l => l) (List.replicate 400 'b')).1 (by decide)⟩

/-- C7: the output of `fetch_articles_from_feeds` is non-increasing in
the publish timestamp, and for every timestamp the subsequence of
articles carrying it equals the corresponding subsequence of the
collected (fetch-order) articles — the sort is stable. -/
theorem fetch_sort_desc_stable (cutoff : Int) (feeds : List (List Char × List FeedEntry)) :
    (fetchArticlesFromFeeds cutoff feeds).Pairwise
        (fun x y => y.published ≤ x.published) ∧
      ∀ t : Int,
        (fetchArticlesFromFeeds cutoff feeds).filter (fun x => x.published == t) =
          (collectArticles cutoff feeds).filter (fun x => x.published == t) := by
  constructor
  · exact pairwise_pySortDesc (collectArticles cutoff feeds)
  · intro t
    exact filter_pySortDesc t (collectArticles cutoff feeds)

/-- C8: a non-zero agent exit status or an agent timeout makes the fetch
run abort with exit status 1, before any digest is produced. -/
theorem agent_failure_aborts_run (nowStr fileTs linkTs : List Char) (wd : Nat)
    (readme : List Char) (env : GitEnv) (rc : Int) (out err : List Char) (h : rc ≠ 0) :
    mainFetch nowStr fileTs linkTs wd readme (GeminiResult.completed rc out err) env =
        Except.error 1 ∧
      mainFetch nowStr fileTs linkTs wd readme GeminiResult.timedOut env =
        Except.error 1 := by
  constructor
  · simp [mainFetch, runGeminiCli, h]
  · rfl

/-- C8 witness: a run whose agent exits with status 1, and one whose
agent times out, both abort with exit status 1. -/
theorem agent_failure_aborts_run_case :
    mainFetch (lit "N") (lit "F") (lit "L") 2 [] (GeminiResult.completed 1 (lit "out") [])
        ⟨true, [], true, true, true, true, false, true, true, true⟩ = Except.error 1 ∧
      mainFetch (lit "N") (lit "F") (lit "L") 2 [] GeminiResult.timedOut
        ⟨true, [], true, true, true, true, false, true, true, true⟩ = Except.error 1 :=
  agent_failure_aborts_run (lit "N") (lit "F") (lit "L") 2 []
    ⟨true, [], true, true, true, true, false, true, true, true⟩ 1 (lit "out") [] (by decide)

/-- C9: once the agent produced usable output, the fetch run succeeds
for EVERY combination of git outcomes (the digest and README results do
not depend on them); in the scenario where the primary (origin) push
fails and the secondary (github) push succeeds, `git_commit_and_push`
itself still reports success, with exactly the origin-push warning;
and the bot's `git_commit_and_push` returns normally whatever its git
operations do (its outer `except` swallows every error). -/
theorem git_failures_do_not_abort (nowStr fileTs linkTs : List Char) (wd : Nat)
    (readme : List Char) (env : GitEnv) (benv : BotGitEnv) (out err : List Char)
    (h : pyStrip out ≠ []) :
    mainFetch nowStr fileTs linkTs wd readme (GeminiResult.completed 0 out err) env =
        Except.ok (saveNewsItem nowStr (getTimeframe wd) out,
          (fetchUpdateReadme linkTs (fetchNewsFilename fileTs) readme).1) ∧
      (env.isRepo = true → pyStrip env.statusOut ≠ [] → env.addOk = true →
        env.pullOk = true → env.commitOk = true → env.pushOriginOk = false →
        env.hasGithubRemote = true → env.pushGithubOk = true →
        gitCommitAndPush env = (true, [GitWarning.pushOriginFailed])) ∧
      botGitCommitAndPush benv = true := by
  refine ⟨?_, ?_, ?_⟩
  · simp [mainFetch, runGeminiCli, h]
  · intro e1 e2 e3 e4 e5 e6 e7 e8
    rw [gitCommitAndPush]
    simp [e1, e2, e3, e4, e5, e6, e7, e8]
  · rw [botGitCommitAndPush]
    cases botGitSteps benv <;> rfl

/-- C9 witness: a concrete run in which the origin push fails while the
github push succeeds still returns the digest and reports success with
only the origin-push warning. -/
theorem git_failures_do_not_abort_case :
    mainFetch (lit "2025-03-03 09:00") (lit "2025-03-03_09:00") (lit "2025-03-03 09:00") 2
        (lit "# Daily News\n\n## Cyber Security News\n\n")
        (GeminiResult.completed 0 (lit "news body") [])
        ⟨true, lit " M x", true, true, true, true, false, false, true, true⟩ =
        Except.ok (saveNewsItem (lit "2025-03-03 09:00") (getTimeframe 2) (lit "news body"),
          (fetchUpdateReadme (lit "2025-03-03 09:00")
            (fetchNewsFilename (lit "2025-03-03_09:00"))
            (lit "# Daily News\n\n## Cyber Security News\n\n")).1) ∧
      gitCommitAndPush ⟨true, lit " M x", true, true, true, true, false, false, true, true⟩ =
        (true, [GitWarning.pushOriginFailed]) := by
  have h := git_failures_do_not_abort (lit "2025-03-03 09:00") (lit "2025-03-03_09:00")
    (lit "2025-03-03 09:00") 2 (lit "# Daily News\n\n## Cyber Security News\n\n")
    ⟨true, lit " M x", true, true, true, true, false, false, true, true⟩
    ⟨false, true, false, false, false⟩ (lit "news body") [] (by decide)
  exact ⟨h.1, h.2.1 rfl (by decide) rfl rfl rfl rfl rfl rfl⟩

/-- C10: an agent run that exits with status zero but whose captured
standard output strips to nothing also aborts with exit status 1 and
produces no digest, exactly like the timeout and non-zero-exit cases. -/
theorem empty_agent_output_aborts (nowStr fileTs linkTs : List Char) (wd : Nat)
    (readme : List Char) (env : GitEnv) (out err : List Char) (h : pyStrip out = []) :
    mainFetch nowStr fileTs linkTs wd readme (GeminiResult.completed 0 out err) env =
      Except.error 1 := by
  simp [mainFetch, runGeminiCli, h]

/-- C10 witness: whitespace-only agent output aborts the run. -/
theorem empty_agent_output_aborts_case :
    mainFetch (lit "N") (lit "F") (lit "L") 1 [] (GeminiResult.completed 0 (lit "  \n") [])
        ⟨true, [], true, true, true, true, false, true, true, true⟩ = Except.error 1 :=
  empty_agent_output_aborts (lit "N") (lit "F") (lit "L") 1 []
    ⟨true, [], true, true, true, true, false, true, true, true⟩ (lit "  \n") [] (by decide)
